import Mathlib

/-!
Verification of the report-to-blog pipeline (`law.py`).

The development shallowly embeds the pure content of the script:
strings are `List Char`, the filesystem/network effects of each function are
made explicit (the download poller consumes a stream of directory
observations, the generator takes the service's reply as a parameter and
reports which request it sent, the post writer returns the list of
filesystem writes it performs).
-/

namespace Law

/-! ## Character model

Python string predicates, restricted to their ASCII behaviour; `str.lower`
is modelled by `Char.toLower`, which lowercases exactly `A`-`Z`. -/

/-- Python whitespace (`str.strip()` with no argument / regex `\s`), ASCII part:
space, tab, newline, carriage return, vertical tab, form feed. -/
def pyIsSpace (c : Char) : Bool :=
  c == ' ' || c == '\t' || c == '\n' || c == '\r' || c == '\x0b' || c == '\x0c'

/-- Regex `\w` (letters, digits, underscore), ASCII part.  Python's `\w` also
matches non-ASCII word characters; the character model here is ASCII. -/
def pyIsWordChar (c : Char) : Bool :=
  c.isAlphanum || c == '_'

/-- The hyphen character, kept by the slug filter `[^\w\s\-]+` (line 211). -/
def isHyphen (c : Char) : Bool :=
  c == '-'

/-- Characters kept by `re.sub(r'[^\w\s\-]+', '', ...)` at line 211. -/
def keepChar (c : Char) : Bool :=
  pyIsWordChar c || pyIsSpace c || isHyphen c

/-- Python `str.strip()`: drop leading and trailing whitespace. -/
def pyStrip (l : List Char) : List Char :=
  List.rdropWhile pyIsSpace (l.dropWhile pyIsSpace)

/-- Python `str.strip('-')`: drop leading and trailing hyphens (line 212). -/
def pyStripHyphens (l : List Char) : List Char :=
  List.rdropWhile isHyphen (l.dropWhile isHyphen)

/-! ## Content Normalizer (`save_markdown_post`, lines 202-215) -/

/-- Characters removed by `lstrip('# ')` at line 207. -/
def isHashOrSpace (c : Char) : Bool :=
  c == '#' || c == ' '

/-- Title derivation, lines 206-207, applied to the already-stripped content:
`title_line = cleaned_output.split('\n', 1)[0]`;
`post_title = title_line.lstrip('# ').strip() if title_line.startswith('#') else "Untitled Report"`. -/
def derivePostTitle (cleaned_output : List Char) : List Char :=
  let title_line := cleaned_output.takeWhile (fun c => c != '\n')
  if title_line.head? = some '#' then
    pyStrip (title_line.dropWhile isHashOrSpace)
  else
    "Untitled Report".toList

/-- Replace every maximal run of characters satisfying `p` by the single
character `r`; the boolean records whether we are inside such a run.
`squashRuns p r false` models `re.sub(p+, r, ...)`:
with `p` = whitespace it is `re.sub(r'\s+', '-', ...)` (line 212), with
`p` = hyphen it is `re.sub(r'--+', '-', ...)` (line 213, which rewrites
every hyphen run to a single hyphen and leaves single hyphens unchanged). -/
def squashRuns (p : Char → Bool) (r : Char) : Bool → List Char → List Char
  | _, [] => []
  | inRun, c :: cs =>
    if p c then
      if inRun then squashRuns p r true cs
      else r :: squashRuns p r true cs
    else
      c :: squashRuns p r false cs

/-- Slug generation, lines 211-214:
`slug = re.sub(r'[^\w\s\-]+', '', post_title.lower())`;
`slug = re.sub(r'\s+', '-', slug).strip('-')`;
`slug = re.sub(r'--+', '-', slug)`;
`if not slug: slug = "report"`. -/
def slugify (post_title : List Char) : List Char :=
  let t1 := (post_title.map Char.toLower).filter keepChar
  let t2 := squashRuns pyIsSpace '-' false t1
  let t3 := pyStripHyphens t2
  let t4 := squashRuns isHyphen '-' false t3
  if t4.isEmpty then "report".toList else t4

/-! ## Filesystem Poller (`wait_for_download_complete`, lines 60-100)

Each iteration of the polling loop makes a fixed sequence of filesystem
observations; the environment is modelled as a stream of per-iteration
observations, indexed by the iteration number.  The wall clock advances only
at the `time.sleep(1)` calls, one second per call, so the loop guard
`time.time() - start_time < timeout` is modelled by a countdown of the
remaining seconds. -/

/-- What one iteration of the loop sees of the `*.pdf` files, after the
`*.crdownload` check came back empty. -/
inductive PdfObs where
  /-- The `glob` at line 73 finds no `*.pdf` file. -/
  | noPdf : PdfObs
  /-- The `glob` finds `*.pdf` files, but the latest one vanishes before the
  `os.path.getmtime` call inside `max` at line 75; `getmtime` then raises
  `FileNotFoundError`, which no handler in the function covers (the
  `try` block only starts at line 76). -/
  | vanishedAtMtime : PdfObs
  /-- The `max` at line 75 selects `path`; `size1` is what `os.path.getsize`
  returns at line 77 (`none` = the call raises, caught at lines 87-92) and
  `size2` what it returns at line 80 after the one-second sleep
  (read only when `size1` succeeded). -/
  | found (path : List Char) (size1 : Option Nat) (size2 : Option Nat) : PdfObs
deriving DecidableEq

/-- One iteration's view of the download directory. -/
structure PollObs where
  /-- Whether `glob(os.path.join(download_dir, "*.crdownload"))` at line 67
  finds an in-progress marker file. -/
  crdownload : Bool
  pdf : PdfObs
deriving DecidableEq

/-- How `wait_for_download_complete` ends. -/
inductive PollResult where
  /-- Normal return of `downloaded_pdf_path` (lines 83-84, 97-98). -/
  | success (path : List Char) : PollResult
  /-- The `raise TimeoutException(...)` at line 100. -/
  | timeout : PollResult
  /-- an exception escapes the function (uncaught `FileNotFoundError`
  from `os.path.getmtime` at line 75). -/
  | crash : PollResult
deriving DecidableEq

/-- What one iteration of the loop body (lines 67-95) does: terminate with a
result, or go round again having slept once or twice. -/
inductive StepRes where
  | done (res : PollResult) : StepRes
  | sleep1 : StepRes
  | sleep2 : StepRes
deriving DecidableEq

/-- One iteration of the loop body, lines 67-95. -/
def pollStep : PollObs → StepRes
  | ⟨true, _⟩ => .sleep1                                   -- lines 68-71: sleep, retry
  | ⟨false, .noPdf⟩ => .sleep1                             -- lines 93-95: sleep, retry
  | ⟨false, .vanishedAtMtime⟩ => .done .crash              -- line 75: uncaught exception
  | ⟨false, .found path s1 s2⟩ =>
    match s1 with
    | none => .sleep1                                      -- lines 87-92: caught, sleep, retry
    | some sz1 =>
      -- line 79: sleep(1), then re-read the size at line 80
      match s2 with
      | none => .sleep2                                    -- lines 87-92: caught, second sleep
      | some sz2 =>
        if sz1 = sz2 ∧ 0 < sz1 then .done (.success path)  -- lines 81-84
        else .sleep1                                       -- lines 85-86: size changed or zero

/-- Select the continuation an iteration asked for. -/
def branch (o : PollObs) (k1 k2 : Unit → PollResult) : PollResult :=
  match pollStep o with
  | .done res => res
  | .sleep1 => k1 ()
  | .sleep2 => k2 ()

/-- The polling loop of lines 66-96.  `remaining` is the number of seconds
left until the guard `time.time() - start_time < timeout` fails; every
`time.sleep(1)` consumes one of them (`sleep2` consumes two). -/
def pollLoop (obs : Nat → PollObs) (iter : Nat) : Nat → PollResult
  | 0 => .timeout
  | r + 1 =>
    branch (obs iter) (fun _ => pollLoop obs (iter + 1) r)
      (fun _ =>
        match r with
        | 0 => .timeout
        | r' + 1 => pollLoop obs (iter + 1) r')

/-- Embedding of `wait_for_download_complete(download_dir, timeout)`, lines 60-100. -/
def wait_for_download_complete (obs : Nat → PollObs) (timeout : Nat) : PollResult :=
  pollLoop obs 0 timeout

/-! ## Narrative Generator (`generate_blog_post_with_gemini`, lines 125-194)

The external service is a parameter: the caller supplies the reply the
service would give, and the outcome records whether `genai.configure` was
reached and which request string was passed to `model.generate_content`. -/

/-- Failure modes of the generator (each a `ValueError` in the source). -/
inductive GenError where
  /-- line 128: `GEMINI_API_KEY` not set. -/
  | missingCredential : GenError
  /-- line 130: extracted text empty or whitespace-only. -/
  | emptyInput : GenError
  /-- line 186: the service blocked generation, with its reason. -/
  | contentBlocked (reason : List Char) : GenError
  /-- line 190: the response carries no usable text. -/
  | malformedResponse : GenError
deriving DecidableEq

/-- The reply of the generation service (`model.generate_content`). -/
inductive ServiceReply where
  /-- Attribute `response.text` exists and holds `t` (line 178). -/
  | text (t : List Char) : ServiceReply
  /-- no text, and `response.prompt_feedback.block_reason` is set (line 184). -/
  | blocked (reason : List Char) : ServiceReply
  /-- neither text nor a block reason (line 187). -/
  | malformed : ServiceReply
deriving DecidableEq

/-- Observable outcome of one generator call. -/
structure GenOutcome where
  /-- whether `genai.configure(api_key=...)` at line 133 was executed. -/
  configured : Bool
  /-- the string passed to `model.generate_content` at line 174,
  if the call was reached. -/
  sentRequest : Option (List Char)
  result : Except GenError (List Char)

/-- Fixed instructional text of the f-string prompt before the interpolated
`{pdf_text}` (lines 139-160).  The Korean instructional prose is long and
never inspected by any claim; the embedding keeps its first words and the
delimiter line that immediately precedes the interpolation point. -/
def promptHeader : List Char :=
  "당신은 국회입법조사처의 보고서 내용을 일반 대중이 이해하기 쉽게 Markdown 형식의 블로그 게시물로 재작성하는 AI 어시스턴트입니다. [...]\n--- 보고서 내용 시작 ---\n".toList

/-- Fixed instructional text of the prompt after the interpolated
`{pdf_text}` (lines 162-165). -/
def promptFooter : List Char :=
  "\n--- 보고서 내용 끝 ---\n[...]".toList

/-- The f-string `prompt` of lines 139-165: the full `pdf_text` is
interpolated between the fixed header and footer. -/
def buildPrompt (pdf_text : List Char) : List Char :=
  promptHeader ++ pdf_text ++ promptFooter

/-- Constant `max_input_length = 10000` (line 167). -/
def max_input_length : Nat := 10000

/-- Python truthiness of the API key: `not api_key` is true for an unset
environment variable (`None`) and for the empty string. -/
def pyFalsyKey : Option (List Char) → Bool
  | none => true
  | some k => k.isEmpty

/-- Post-processing of the leading fence, line 181:
`re.sub(r'^```markdown\s*', '', blog_post, flags=re.IGNORECASE)`.
Without `re.MULTILINE` the anchor `^` only matches at position 0, so the
substitution fires exactly when the text starts with "```markdown"
(case-insensitively) and then also removes the following whitespace run. -/
def stripLeadingFence (t : List Char) : List Char :=
  if (t.take 11).map Char.toLower = "```markdown".toList then
    (t.drop 11).dropWhile pyIsSpace
  else t

/-- Post-processing of the trailing fence, line 182:
`re.sub(r'\s*```$', '', blog_post)`.
`$` (without `re.MULTILINE`) matches at the end of the string or just
before a newline that ends the string, so the single substitution removes a
final "```" together with the maximal whitespace run before it, either at
the very end or just before a final newline. -/
def stripTrailingFence (t : List Char) : List Char :=
  if t.rtake 3 = "```".toList then
    List.rdropWhile pyIsSpace (t.rdrop 3)
  else if t.rtake 4 = "```\n".toList then
    List.rdropWhile pyIsSpace (t.rdrop 4) ++ ['\n']
  else t

/-- Lines 179-183: strip the fence markers the service sometimes wraps
around the reply, then `strip()` the result. -/
def processReply (t : List Char) : List Char :=
  pyStrip (stripTrailingFence (stripLeadingFence t))

/-- Embedding of `generate_blog_post_with_gemini(api_key, pdf_text)`, lines 125-194.
Note that the truncated variable `pdf_text_input` of lines 167-172 is
computed but never used: the request passed to `model.generate_content`
at line 174 is `prompt`, which interpolated the full `pdf_text` at
line 161, before the truncation. -/
def generate_blog_post_with_gemini (api_key : Option (List Char))
    (pdf_text : List Char) (reply : ServiceReply) : GenOutcome :=
  if pyFalsyKey api_key then
    ⟨false, none, .error .missingCredential⟩               -- lines 127-128
  else if pdf_text.isEmpty || (pyStrip pdf_text).isEmpty then
    ⟨false, none, .error .emptyInput⟩                      -- lines 129-130
  else
    let prompt := buildPrompt pdf_text                     -- lines 139-165
    let pdf_text_input :=                                  -- lines 167-172 (dead store)
      if max_input_length < pdf_text.length then pdf_text.take max_input_length
      else pdf_text
    match reply with                                       -- line 174 sends `prompt`
    | .text t => ⟨true, some prompt, .ok (processReply t)⟩
    | .blocked r => ⟨true, some prompt, .error (.contentBlocked r)⟩
    | .malformed => ⟨true, some prompt, .error .malformedResponse⟩

/-! ## Post Writer (`save_markdown_post`, lines 196-250) -/

/-- Constant `POSTS_DIR = "_articles"` (line 27). -/
def POSTS_DIR : List Char := "_articles".toList

/-- Failure mode of the writer (`ValueError` at line 204). -/
inductive SaveError where
  | emptyContent : SaveError
deriving DecidableEq

/-- Filesystem effects `save_markdown_post` can perform. -/
inductive FsWrite where
  /-- The `os.makedirs(POSTS_DIR, exist_ok=True)` at line 224. -/
  | mkdirPosts : FsWrite
  /-- the `open(filepath, "w")` / `f.write(...)` of lines 245-247. -/
  | writeFile (path : List Char) (content : List Char) : FsWrite
deriving DecidableEq

/-- Observable outcome of one writer call: the filesystem writes it
performed, in order, and the returned path or raised error. -/
structure SaveOutcome where
  effects : List FsWrite
  result : Except SaveError (List Char)

/-- Days-since-1970-01-01 to proleptic Gregorian (year, month, day);
civil-from-days algorithm, for the non-negative range. -/
def daysToCivil (z0 : Nat) : Nat × Nat × Nat :=
  let z := z0 + 719468
  let era := z / 146097
  let doe := z % 146097
  let yoe := (doe - doe / 1460 + doe / 36524 - doe / 146097) / 365
  let doy := doe - (365 * yoe + yoe / 4 - yoe / 100)
  let mp := (5 * doy + 2) / 153
  let d := doy - (153 * mp + 2) / 5 + 1
  let m := if mp < 10 then mp + 3 else mp - 9
  let y := yoe + era * 400
  (if mp < 10 then y else y + 1, m, d)

/-- Decimal digits, zero-padded on the left to width 2 (`strftime` `%m`/`%d`). -/
def pad2 (n : Nat) : List Char :=
  if n < 10 then '0' :: Nat.toDigits 10 n else Nat.toDigits 10 n

/-- Decimal digits, zero-padded on the left to width 4 (`strftime` `%Y`). -/
def pad4 (n : Nat) : List Char :=
  if n < 10 then '0' :: '0' :: '0' :: Nat.toDigits 10 n
  else if n < 100 then '0' :: '0' :: Nat.toDigits 10 n
  else if n < 1000 then '0' :: Nat.toDigits 10 n
  else Nat.toDigits 10 n

/-- Lines 218-220: `kst = timezone(timedelta(hours=9))`;
`now = datetime.now(kst)`; `current_date_str = now.strftime('%Y-%m-%d')`.
`nowUtc` is the wall-clock instant at write time as seconds since the epoch;
the date is taken after shifting it by the fixed +09:00 offset. -/
def kstDateString (nowUtc : Nat) : List Char :=
  let days := (nowUtc + 9 * 3600) / 86400
  let c := daysToCivil days
  pad4 c.1 ++ '-' :: pad2 c.2.1 ++ '-' :: pad2 c.2.2

/-- Embedding of `save_markdown_post(markdown_content)`, lines 196-250.  `nowUtc` is the
instant `datetime.now` observes at line 219. -/
def save_markdown_post (markdown_content : List Char) (nowUtc : Nat) : SaveOutcome :=
  let cleaned_output := pyStrip markdown_content           -- line 202
  if cleaned_output.isEmpty then
    ⟨[], .error .emptyContent⟩                             -- lines 203-204
  else
    let post_title := derivePostTitle cleaned_output       -- lines 206-207
    let slug := slugify post_title                         -- lines 211-214
    let filename := kstDateString nowUtc ++ '-' :: slug ++ ".md".toList  -- line 225
    let filepath := POSTS_DIR ++ '/' :: filename           -- line 226
    ⟨[.mkdirPosts, .writeFile filepath cleaned_output], .ok filepath⟩  -- lines 224, 245-250

/-! ## Auxiliary definitions used by the claims -/

/-- Modelled from the spec's words for claim C2 (spec-side function, to be
compared with the code-side `derivePostTitle`): "Title = the first line of
the trimmed content, with any leading heading marker and surrounding
whitespace stripped; if this yields an empty string, substitute a fixed
fallback title." -/
def titleSpecC2 (markdown_content : List Char) : List Char :=
  let firstLine := (pyStrip markdown_content).takeWhile (fun c => c != '\n')
  let stripped := pyStrip (firstLine.dropWhile isHashOrSpace)
  if stripped.isEmpty then "Untitled Report".toList else stripped

/-- An extracted text one character longer than `max_input_length`; its final
character `'z'` lies beyond the truncation cutoff. -/
def c1Text : List Char := List.replicate 10000 'a' ++ ['z']

/-- Observation stream for C3: at every iteration the directory holds the
single matching file `report.pdf`, whose size reads `0` at both probes, and
no transient marker. -/
def obsZeroSize : Nat → PollObs :=
  fun _ => ⟨false, .found "report.pdf".toList (some 0) (some 0)⟩

/-- Observation stream for C4: a `*.crdownload` transient marker is present
at every iteration. -/
def obsMarker : Nat → PollObs :=
  fun _ => ⟨true, .noPdf⟩

/-- Observation stream for C5: the listing finds a matching file but it
vanishes before the `os.path.getmtime` call of line 75. -/
def obsVanishAtMtime : Nat → PollObs :=
  fun _ => ⟨false, .vanishedAtMtime⟩

/-- Contrast stream for C5: at iteration 0 the matched file vanishes between
`max` and the first `os.path.getsize` (the caught case, lines 87-89); from
iteration 1 on it is stable with size 7. -/
def obsVanishAtGetsize : Nat → PollObs :=
  fun i =>
    if i = 0 then ⟨false, .found "report.pdf".toList none none⟩
    else ⟨false, .found "report.pdf".toList (some 7) (some 7)⟩

/-- A service reply wrapped in bare fences, with no `markdown` language tag. -/
def bareFenceReply : List Char := "```\nHello World\n```".toList

/-- A character a slug may contain: word character or hyphen, fixed by
lowercasing. -/
def slugChar (c : Char) : Bool :=
  (pyIsWordChar c || isHyphen c) && (Char.toLower c == c)

/-- No two adjacent hyphens. -/
def noHyphenRun : List Char → Bool
  | [] => true
  | [_] => true
  | a :: b :: t => !(isHyphen a && isHyphen b) && noHyphenRun (b :: t)

/-- Normal form of the strings produced by `slugify`: nonempty, every
character a lowercase-stable word character or hyphen, no hyphen at either
end, no hyphen run. -/
def SlugForm (l : List Char) : Bool :=
  !l.isEmpty && l.all slugChar &&
    (l.head?.all fun c => !isHyphen c) &&
    (l.getLast?.all fun c => !isHyphen c) &&
    noHyphenRun l

/-! ## General lemmas: characters, trimming -/

theorem char_toNat_ofNat {n : Nat} (h : n < 55296) : (Char.ofNat n).toNat = n := by
  unfold Char.ofNat
  rw [dif_pos (Or.inl h)]
  rfl

theorem toLower_toLower (c : Char) : (Char.toLower c).toLower = Char.toLower c := by
  by_cases h : c.toNat ≥ 65 ∧ c.toNat ≤ 90
  · have h2 : (Char.ofNat (c.toNat + 32)).toNat = c.toNat + 32 :=
      char_toNat_ofNat (by omega)
    simp only [Char.toLower, if_pos h, h2]
    rw [if_neg (by omega)]
  · simp only [Char.toLower, if_neg h]

theorem head?_append_left {l t : List Char} (h : l ≠ []) : (l ++ t).head? = l.head? := by
  cases l with
  | nil => exact absurd rfl h
  | cons a l => rfl

theorem dropWhile_eq_self_of_head {p : Char → Bool} {l : List Char}
    (h : ∀ c, l.head? = some c → p c = false) : l.dropWhile p = l := by
  cases l with
  | nil => rfl
  | cons a l => rw [List.dropWhile_cons, h a rfl]; simp

theorem rdropWhile_eq_self_of_getLast {p : Char → Bool} {l : List Char}
    (h : ∀ c, l.getLast? = some c → p c = false) : List.rdropWhile p l = l := by
  rw [List.rdropWhile_eq_self_iff]
  intro hl
  simp [h (l.getLast hl) (List.getLast?_eq_getLast l hl)]

theorem length_rdropWhile_le (p : Char → Bool) (l : List Char) :
    (List.rdropWhile p l).length ≤ l.length := by
  rw [List.rdropWhile, List.length_reverse]
  calc (l.reverse.dropWhile p).length
      ≤ l.reverse.length := (List.dropWhile_suffix p).length_le
    _ = l.length := List.length_reverse l

theorem strip_parts_eq_self {p : Char → Bool} {l : List Char}
    (h : List.rdropWhile p (l.dropWhile p) = l) :
    l.dropWhile p = l ∧ List.rdropWhile p l = l := by
  have h2 : l.length ≤ (l.dropWhile p).length := by
    conv_lhs => rw [← h]
    exact length_rdropWhile_le _ _
  obtain ⟨t, ht⟩ := List.dropWhile_suffix (l := l) p
  have hlt : t.length = 0 := by
    have hlen := congrArg List.length ht
    simp only [List.length_append] at hlen
    omega
  have hd : l.dropWhile p = l := by
    rw [List.length_eq_zero.mp hlt] at ht
    simpa using ht
  exact ⟨hd, by rw [← hd]; rw [hd] at h; rw [hd]; exact h⟩

theorem pyStrip_eq_self {l : List Char} (h : pyStrip l = l) :
    l.dropWhile pyIsSpace = l ∧ List.rdropWhile pyIsSpace l = l :=
  strip_parts_eq_self h

/-! ## Claims C3, C4, C5: the Filesystem Poller -/

theorem pollLoop_succ (obs : Nat → PollObs) (iter r : Nat) :
    pollLoop obs iter (r + 1) =
      branch (obs iter) (fun _ => pollLoop obs (iter + 1) r)
        (fun _ =>
          match r with
          | 0 => .timeout
          | r' + 1 => pollLoop obs (iter + 1) r') := by
  rw [pollLoop.eq_def]

/-- C3: if the only matching file reads size zero at every observation,
no iteration of the polling loop can take the success exit, because the
completion test at line 81 requires a strictly positive stable size; once
the window is exhausted the function raises `TimeoutException`. -/
theorem poller_zero_size_times_out (obs : Nat → PollObs)
    (h : ∀ i, obs i = ⟨false, .found ("report.pdf".toList) (some 0) (some 0)⟩)
    (timeout : Nat) :
    wait_for_download_complete obs timeout = .timeout := by
  suffices H : ∀ r iter, pollLoop obs iter r = .timeout from H timeout 0
  intro r
  induction r with
  | zero => intro iter; rfl
  | succ r ih =>
    intro iter
    rw [pollLoop_succ, h iter]
    simpa [branch, pollStep] using ih (iter + 1)

/-- Witness for C3. -/
theorem poller_zero_size_times_out_witness :
    wait_for_download_complete obsZeroSize 120 = .timeout :=
  poller_zero_size_times_out obsZeroSize (fun _ => rfl) 120

/-- C4: an iteration that sees a `*.crdownload` marker only sleeps and
retries (first conjunct: it returns nothing and merely advances the loop),
and if the marker is present at every observation the poller ends in
`TimeoutException` (second conjunct). -/
theorem poller_marker_blocks (obs : Nat → PollObs) :
    (∀ iter r, (obs iter).crdownload = true →
        pollLoop obs iter (r + 1) = pollLoop obs (iter + 1) r) ∧
    ((∀ i, (obs i).crdownload = true) →
      ∀ timeout, wait_for_download_complete obs timeout = .timeout) := by
  have step : ∀ iter r, (obs iter).crdownload = true →
      pollLoop obs iter (r + 1) = pollLoop obs (iter + 1) r := by
    intro iter r hm
    rw [pollLoop_succ]
    rcases ho : obs iter with ⟨cr, pdf⟩
    rw [ho] at hm
    simp only at hm
    subst hm
    simp [branch, pollStep]
  refine ⟨step, fun h timeout => ?_⟩
  suffices H : ∀ r iter, pollLoop obs iter r = .timeout from H timeout 0
  intro r
  induction r with
  | zero => intro iter; rfl
  | succ r ih =>
    intro iter
    rw [step iter r (h iter)]
    exact ih (iter + 1)

/-- Witness for C4. -/
theorem poller_marker_blocks_witness :
    pollLoop obsMarker 0 6 = pollLoop obsMarker 1 5 ∧
    wait_for_download_complete obsMarker 120 = .timeout :=
  ⟨(poller_marker_blocks obsMarker).1 0 5 rfl,
   (poller_marker_blocks obsMarker).2 (fun _ => rfl) 120⟩

/-- C5 (code bug): when the matched file vanishes between the directory
listing (line 73) and the `os.path.getmtime` call inside `max` (line 75),
the resulting `FileNotFoundError` is raised outside the `try` block of
lines 76-92, so the poller crashes instead of treating the disappearance
as transient.  By contrast a vanish at the `os.path.getsize` probes is
caught: the second conjunct shows such a run consuming the caught iteration
and then succeeding. -/
theorem poller_vanish_at_mtime_crashes :
    wait_for_download_complete obsVanishAtMtime 120 = .crash ∧
    wait_for_download_complete obsVanishAtGetsize 120 =
      .success ("report.pdf".toList) := by
  exact ⟨by decide, by decide⟩

/-! ## More trimming and append lemmas -/

theorem head_not_of_dropWhile_eq_self {p : Char → Bool} {l : List Char}
    (h : l.dropWhile p = l) : ∀ c, l.head? = some c → p c = false := by
  intro c hc
  cases l with
  | nil => simp at hc
  | cons a t =>
    have hac : a = c := by simpa using hc
    by_contra hp
    have hp' : p a = true := by rw [hac]; simpa using hp
    rw [List.dropWhile_cons, hp'] at h
    simp only [if_true] at h
    have hlen := congrArg List.length h
    have hle := (List.dropWhile_suffix (l := t) p).length_le
    simp only [List.length_cons] at hlen
    omega

theorem getLast_not_of_rdropWhile_eq_self {p : Char → Bool} {l : List Char}
    (h : List.rdropWhile p l = l) : ∀ c, l.getLast? = some c → p c = false := by
  rw [List.rdropWhile_eq_self_iff] at h
  intro c hc
  have hne : l ≠ [] := by intro e; subst e; simp at hc
  have h2 := h hne
  rw [List.getLast?_eq_getLast l hne] at hc
  obtain rfl : l.getLast hne = c := by simpa using hc
  simpa using h2

theorem dropWhile_append_eq {p : Char → Bool} {l t : List Char} (hl : l ≠ [])
    (h : ∀ c, l.head? = some c → p c = false) :
    (l ++ t).dropWhile p = l ++ t := by
  cases l with
  | nil => exact absurd rfl hl
  | cons a u =>
    rw [List.cons_append, List.dropWhile_cons, h a rfl]
    simp

theorem take_append_left {n : Nat} {l t : List Char} (h : n ≤ l.length) :
    (l ++ t).take n = l.take n := by
  rw [List.take_append_eq_append_take]
  simp [Nat.sub_eq_zero_of_le h]

theorem drop_append_left {n : Nat} {l t : List Char} (h : n ≤ l.length) :
    (l ++ t).drop n = l.drop n ++ t := by
  rw [List.drop_append_eq_append_drop]
  simp [Nat.sub_eq_zero_of_le h]

theorem rtake_append {n : Nat} {l t : List Char} (h : n ≤ t.length) :
    (l ++ t).rtake n = t.rtake n := by
  rw [List.rtake_eq_reverse_take_reverse, List.rtake_eq_reverse_take_reverse,
    List.reverse_append, take_append_left (by simpa using h)]

theorem rdrop_append {n : Nat} {l t : List Char} (h : n ≤ t.length) :
    (l ++ t).rdrop n = l ++ t.rdrop n := by
  rw [List.rdrop_eq_reverse_drop_reverse, List.rdrop_eq_reverse_drop_reverse,
    List.reverse_append, drop_append_left (by simpa using h)]
  simp

/-! ## Claim C7: missing credential -/

/-- C7: with a falsy credential (unset variable or empty string) the
generator raises at line 128, before `genai.configure` (line 133) and before
`model.generate_content` (line 174): no request is sent, for every input
text and every would-be service reply. -/
theorem generator_missing_credential (api_key : Option (List Char))
    (pdf_text : List Char) (reply : ServiceReply)
    (h : pyFalsyKey api_key = true) :
    generate_blog_post_with_gemini api_key pdf_text reply =
      ⟨false, none, .error .missingCredential⟩ := by
  unfold generate_blog_post_with_gemini
  rw [if_pos h]

/-- Witness for C7: `None` and `""` credentials, with non-empty extracted
text. -/
theorem generator_missing_credential_witness :
    generate_blog_post_with_gemini none ("Report body text".toList)
        (.text ("# T\n\nBody".toList)) =
      ⟨false, none, .error .missingCredential⟩ ∧
    generate_blog_post_with_gemini (some []) ("Report body text".toList)
        .malformed =
      ⟨false, none, .error .missingCredential⟩ :=
  ⟨generator_missing_credential none _ _ rfl,
   generator_missing_credential (some []) _ _ rfl⟩

/-! ## Claim C1: the truncation is dead code -/

theorem c1Text_strip : pyStrip c1Text = c1Text := by
  have hd : c1Text.dropWhile pyIsSpace = c1Text := by
    have he : c1Text = 'a' :: (List.replicate 9999 'a' ++ ['z']) := rfl
    rw [he, List.dropWhile_cons, show pyIsSpace 'a' = false from rfl]
    simp only [Bool.false_eq_true, if_false]
  have hr : List.rdropWhile pyIsSpace c1Text = c1Text := by
    unfold c1Text
    exact List.rdropWhile_concat_neg _ _ 'z' (by decide)
  unfold pyStrip
  rw [hd, hr]

/-- C1 (code bug): for an extracted text longer than `max_input_length`, the
request passed to `model.generate_content` still interpolates the full text,
including the portion beyond the 10000-character cutoff, because the prompt
is built at lines 139-165 from `pdf_text` while the truncated
`pdf_text_input` of lines 167-172 is never used.  Here `c1Text` has length
10001 and its character `'z'` beyond the cutoff
(`c1Text.drop max_input_length = ['z']`) is part of the sent request. -/
theorem generator_sends_untruncated_text (reply : ServiceReply) :
    (generate_blog_post_with_gemini (some ("k".toList)) c1Text reply).sentRequest =
      some (promptHeader ++ c1Text ++ promptFooter) ∧
    max_input_length < c1Text.length ∧
    c1Text.drop max_input_length = ['z'] := by
  have hlen : c1Text.length = 10001 := by
    unfold c1Text
    rw [List.length_append, List.length_replicate]
    rfl
  refine ⟨?_, by rw [hlen]; decide, ?_⟩
  · unfold generate_blog_post_with_gemini
    rw [if_neg (by decide)]
    rw [if_neg ?hne]
    case hne =>
      rw [c1Text_strip, show c1Text.isEmpty = false from rfl]
      decide
    cases reply <;> rfl
  · have he : max_input_length = (List.replicate 10000 'a').length := by
      rw [List.length_replicate]
      rfl
    rw [show c1Text.drop max_input_length =
          (List.replicate 10000 'a' ++ ['z']).drop (List.replicate 10000 'a').length
        from by rw [← he]; rfl]
    exact List.drop_left _ _

/-! ## Claim C6: fence stripping -/

/-- C6 counterexample: a reply wrapped in bare fences (no `markdown`
language tag) does not match the leading pattern `^```markdown\s*` of
line 181, so the returned text still begins with a fence marker. -/
theorem fence_not_stripped_counterexample :
    processReply bareFenceReply = "```\nHello World".toList ∧
    (processReply bareFenceReply).take 3 = "```".toList := by
  constructor <;> decide

/-- C6 amended: the post-processing removes exactly a leading
"```markdown" fence (with the whitespace after it) and a trailing "```"
fence (with the whitespace before it), then trims; so a reply wrapped in
"```markdown\n ... \n```" around an already-trimmed body is unwrapped to
exactly that body.  (A bare leading "```" fence is not removed, as the
counterexample shows.) -/
theorem fence_markdown_unwrapped (body : List Char) (h : pyStrip body = body) :
    processReply ("```markdown\n".toList ++ body ++ "\n```".toList) = body := by
  obtain ⟨hd, hr⟩ := pyStrip_eq_self h
  by_cases hb : body = []
  · subst hb; decide
  · have h1 : stripLeadingFence ("```markdown\n".toList ++ body ++ "\n```".toList)
        = body ++ "\n```".toList := by
      unfold stripLeadingFence
      rw [List.append_assoc, if_pos ?cond]
      case cond =>
        rw [take_append_left (by decide)]
        decide
      rw [drop_append_left (by decide)]
      rw [show ("```markdown\n".toList.drop 11) = ['\n'] from rfl,
        List.singleton_append, List.dropWhile_cons]
      rw [show pyIsSpace '\n' = true from rfl]
      simp only [if_true]
      exact dropWhile_append_eq hb (head_not_of_dropWhile_eq_self hd)
    have h2 : stripTrailingFence (body ++ "\n```".toList) = body := by
      unfold stripTrailingFence
      rw [if_pos ?c2]
      case c2 =>
        rw [rtake_append (by decide)]
        decide
      rw [rdrop_append (by decide)]
      rw [show ("\n```".toList.rdrop 3) = ['\n'] from by decide]
      rw [List.rdropWhile_concat_pos _ _ '\n' (by decide)]
      exact hr
    show pyStrip (stripTrailingFence (stripLeadingFence _)) = _
    rw [h1, h2, h]

/-- Witness for the amended C6. -/
theorem fence_markdown_unwrapped_witness :
    processReply ("```markdown\n".toList ++ "Hello World".toList ++ "\n```".toList) =
      "Hello World".toList :=
  fence_markdown_unwrapped ("Hello World".toList) (by decide)

/-! ## Claims C2 and C10: title derivation -/

/-- C2 counterexample: on content whose first line has no heading marker the
code substitutes the fallback title (line 207 falls back whenever the first
line does not start with `'#'`), although stripping by the spec's rule
yields the non-empty title "Hello World". -/
theorem title_rule_counterexample :
    derivePostTitle (pyStrip ("Hello World\n\nBody...".toList)) ≠
      titleSpecC2 ("Hello World\n\nBody...".toList) ∧
    derivePostTitle (pyStrip ("Hello World\n\nBody...".toList)) =
      "Untitled Report".toList ∧
    titleSpecC2 ("Hello World\n\nBody...".toList) = "Hello World".toList :=
  ⟨by decide, by decide, by decide⟩

/-- C2 amended: the derived title equals the first line stripped of its
leading `'#'` and `' '` characters and of surrounding whitespace when the
first line starts with `'#'` (even when that leaves the empty string), and
the fixed fallback title is substituted exactly when the first line does not
start with `'#'`; the input "# Hello World\n\nBody..." yields
"Hello World". -/
theorem title_rule_amended :
    derivePostTitle ("# Hello World\n\nBody...".toList) = "Hello World".toList ∧
    (∀ cleaned_output : List Char,
        (cleaned_output.takeWhile (fun c => c != '\n')).head? = some '#' →
        derivePostTitle cleaned_output =
          pyStrip ((cleaned_output.takeWhile (fun c => c != '\n')).dropWhile
            isHashOrSpace)) ∧
    (∀ cleaned_output : List Char,
        (cleaned_output.takeWhile (fun c => c != '\n')).head? ≠ some '#' →
        derivePostTitle cleaned_output = "Untitled Report".toList) := by
  refine ⟨by decide, ?_, ?_⟩
  · intro cleaned h
    simp only [derivePostTitle]
    rw [if_pos h]
  · intro cleaned h
    simp only [derivePostTitle]
    rw [if_neg h]

/-- Witness for the amended C2. -/
theorem title_rule_amended_witness :
    derivePostTitle ("## Sub Title\nBody".toList) = "Sub Title".toList ∧
    derivePostTitle ("Plain\nBody".toList) = "Untitled Report".toList :=
  ⟨(title_rule_amended.2.1 ("## Sub Title\nBody".toList) (by decide)).trans
      (by decide),
   title_rule_amended.2.2 ("Plain\nBody".toList) (by decide)⟩

/-- C10: for non-empty trimmed content, the fallback title is used exactly
when the first line does not start with `'#'`: a first line without a
leading `'#'` always yields the fallback no matter its content, while a
first line starting with `'#'` is used after stripping `'#'` and spaces,
even when the stripped remainder is empty. -/
theorem fallback_used_iff_no_hash :
    (∀ cleaned_output : List Char, cleaned_output ≠ [] →
        (cleaned_output.takeWhile (fun c => c != '\n')).head? ≠ some '#' →
        derivePostTitle cleaned_output = "Untitled Report".toList) ∧
    (∀ cleaned_output : List Char, cleaned_output ≠ [] →
        (cleaned_output.takeWhile (fun c => c != '\n')).head? = some '#' →
        derivePostTitle cleaned_output =
          pyStrip ((cleaned_output.takeWhile (fun c => c != '\n')).dropWhile
            isHashOrSpace)) ∧
    derivePostTitle ("Some informative first line\nBody".toList) =
      "Untitled Report".toList ∧
    derivePostTitle ("#\nBody".toList) = [] ∧
    derivePostTitle ("# \nBody".toList) = [] := by
  refine ⟨?_, ?_, by decide, by decide, by decide⟩
  · intro cleaned _ h
    simp only [derivePostTitle]
    rw [if_neg h]
  · intro cleaned _ h
    simp only [derivePostTitle]
    rw [if_pos h]

/-- Witness for C10. -/
theorem fallback_used_iff_no_hash_witness :
    derivePostTitle ("1. Numbered line\nBody".toList) = "Untitled Report".toList ∧
    derivePostTitle ("###\nBody".toList) = [] :=
  ⟨fallback_used_iff_no_hash.1 ("1. Numbered line\nBody".toList) (by decide)
      (by decide),
   (fallback_used_iff_no_hash.2.1 ("###\nBody".toList) (by decide)
      (by decide)).trans (by decide)⟩

/-! ## Claim C9: the Post Writer -/

/-- C9: with a body that is non-blank after trimming, the writer creates the
content directory (`os.makedirs`, line 224), writes the single file
`{date}-{slug}.md` into it — the date taken from the write-time instant
shifted by the fixed +09:00 offset (lines 218-221) — and returns the written
path; with a body that is blank after trimming it raises `EmptyContent`
(line 204) and performs no filesystem write. -/
theorem writer_contract (markdown_content : List Char) (nowUtc : Nat) :
    (pyStrip markdown_content ≠ [] →
      save_markdown_post markdown_content nowUtc =
        { effects := [.mkdirPosts,
            .writeFile
              (POSTS_DIR ++ '/' :: (kstDateString nowUtc ++ '-' ::
                slugify (derivePostTitle (pyStrip markdown_content)) ++
                  ".md".toList))
              (pyStrip markdown_content)],
          result := .ok
            (POSTS_DIR ++ '/' :: (kstDateString nowUtc ++ '-' ::
              slugify (derivePostTitle (pyStrip markdown_content)) ++
                ".md".toList)) }) ∧
    (pyStrip markdown_content = [] →
      save_markdown_post markdown_content nowUtc =
        { effects := [], result := .error .emptyContent }) := by
  constructor
  · intro h
    unfold save_markdown_post
    rw [if_neg (by simpa [List.isEmpty_iff] using h)]
  · intro h
    unfold save_markdown_post
    rw [if_pos (by simpa [List.isEmpty_iff] using h)]

/-- Witness for C9: a concrete write on 2025-10-12 (KST) and a concrete
blank body. -/
theorem writer_contract_witness :
    save_markdown_post ("# My Title\n\nSome article body.".toList) 1760227200 =
      { effects := [.mkdirPosts,
          .writeFile ("_articles/2025-10-12-my-title.md".toList)
            ("# My Title\n\nSome article body.".toList)],
        result := .ok ("_articles/2025-10-12-my-title.md".toList) } ∧
    save_markdown_post ("  \n \t ".toList) 1760227200 =
      { effects := [], result := .error .emptyContent } :=
  ⟨((writer_contract ("# My Title\n\nSome article body.".toList) 1760227200).1
      (by decide)).trans (by rfl),
   (writer_contract ("  \n \t ".toList) 1760227200).2 (by decide)⟩

/-! ## Claim C8: slug idempotence.

The proof characterizes the image of `slugify` by the normal form
`SlugForm` and shows each pipeline stage is the identity on that normal
form. -/

theorem mem_squashRuns {p : Char → Bool} {r : Char} {l : List Char} :
    ∀ {b c}, c ∈ squashRuns p r b l → c = r ∨ (c ∈ l ∧ p c = false) := by
  induction l with
  | nil => intro b c hc; simp [squashRuns] at hc
  | cons a t ih =>
    intro b c hc
    rw [squashRuns] at hc
    by_cases hp : p a = true
    · rw [hp] at hc
      simp only [if_true] at hc
      have hc' : c ∈ squashRuns p r true t ∨ c = r := by
        cases b with
        | true => exact Or.inl (by simpa using hc)
        | false =>
          rcases List.mem_cons.1 (by simpa using hc) with h2 | h2
          · exact Or.inr h2
          · exact Or.inl h2
      rcases hc' with h2 | h2
      · rcases ih h2 with h3 | ⟨h3, h4⟩
        · exact Or.inl h3
        · exact Or.inr ⟨List.mem_cons_of_mem _ h3, h4⟩
      · exact Or.inl h2
    · rw [if_neg hp] at hc
      have hpa : p a = false := by simpa using hp
      rcases List.mem_cons.1 hc with rfl | h2
      · exact Or.inr ⟨List.mem_cons_self _ _, hpa⟩
      · rcases ih h2 with h3 | ⟨h3, h4⟩
        · exact Or.inl h3
        · exact Or.inr ⟨List.mem_cons_of_mem _ h3, h4⟩

theorem squashRuns_eq_self {p : Char → Bool} {r : Char} {l : List Char}
    (h : ∀ c ∈ l, p c = false) : ∀ b, squashRuns p r b l = l := by
  induction l with
  | nil => intro b; rfl
  | cons a t ih =>
    intro b
    rw [squashRuns, h a (List.mem_cons_self _ _)]
    simp only [Bool.false_eq_true, if_false]
    rw [ih (fun c hc => h c (List.mem_cons_of_mem _ hc)) false]

theorem squashRuns_eq_nil {p : Char → Bool} {r : Char} {l : List Char} :
    ∀ {b}, squashRuns p r b l = [] → ∀ c ∈ l, p c = true := by
  induction l with
  | nil => intro b _ c hc; simp at hc
  | cons a t ih =>
    intro b h c hc
    rw [squashRuns] at h
    by_cases hp : p a = true
    · rw [hp] at h
      simp only [if_true] at h
      cases b with
      | true =>
        rcases List.mem_cons.1 hc with rfl | h2
        · exact hp
        · exact ih h c h2
      | false => simp at h
    · rw [if_neg hp] at h
      simp at h

theorem noHyphenRun_tail {a : Char} {t : List Char}
    (h : noHyphenRun (a :: t) = true) : noHyphenRun t = true := by
  cases t with
  | nil => rfl
  | cons b u =>
    rw [noHyphenRun] at h
    exact (Bool.and_eq_true_iff.mp h).2

theorem noHyphenRun_cons_head {a : Char} {t : List Char}
    (h : noHyphenRun (a :: t) = true) :
    ∀ b, t.head? = some b → (isHyphen a && isHyphen b) = false := by
  intro b hb
  cases t with
  | nil => simp at hb
  | cons c u =>
    have hcb : c = b := by simpa using hb
    rw [noHyphenRun] at h
    have h1 := (Bool.and_eq_true_iff.mp h).1
    rw [← hcb]
    cases hx : (isHyphen a && isHyphen c) with
    | false => rfl
    | true => rw [hx] at h1; simp at h1

theorem noHyphenRun_cons_of {a : Char} {t : List Char}
    (ht : noHyphenRun t = true)
    (h : ∀ b, t.head? = some b → (isHyphen a && isHyphen b) = false) :
    noHyphenRun (a :: t) = true := by
  cases t with
  | nil => rfl
  | cons c u =>
    rw [noHyphenRun, h c rfl, ht]
    rfl

theorem squashHyphens_noRun (l : List Char) :
    ∀ b, noHyphenRun (squashRuns isHyphen '-' b l) = true ∧
      (∀ c, (squashRuns isHyphen '-' true l).head? = some c →
        isHyphen c = false) := by
  induction l with
  | nil =>
    intro b
    exact ⟨rfl, by intro c hc; simp [squashRuns] at hc⟩
  | cons a t ih =>
    intro b
    by_cases hp : isHyphen a = true
    · have e1 : squashRuns isHyphen '-' true (a :: t) =
          squashRuns isHyphen '-' true t := by
        rw [squashRuns, hp]; simp
      have e0 : squashRuns isHyphen '-' false (a :: t) =
          '-' :: squashRuns isHyphen '-' true t := by
        rw [squashRuns, hp]; simp
      refine ⟨?_, ?_⟩
      · cases b with
        | true => rw [e1]; exact (ih true).1
        | false =>
          rw [e0]
          refine noHyphenRun_cons_of (ih true).1 (fun d hd => ?_)
          rw [(ih true).2 d hd]
          simp
      · intro c hc
        rw [e1] at hc
        exact (ih true).2 c hc
    · have hpa : isHyphen a = false := by simpa using hp
      have e : ∀ b' : Bool, squashRuns isHyphen '-' b' (a :: t) =
          a :: squashRuns isHyphen '-' false t := by
        intro b'; rw [squashRuns, hpa]; simp
      refine ⟨?_, ?_⟩
      · rw [e b]
        exact noHyphenRun_cons_of (ih false).1 (fun d _ => by rw [hpa]; simp)
      · intro c hc
        rw [e true] at hc
        have hac : a = c := by simpa using hc
        rw [← hac]; exact hpa

theorem squashHyphens_getLast {l : List Char}
    (h : ∀ c, l.getLast? = some c → isHyphen c = false) :
    ∀ b c, (squashRuns isHyphen '-' b l).getLast? = some c →
      isHyphen c = false := by
  induction l with
  | nil => intro b c hc; simp [squashRuns] at hc
  | cons a t ih =>
    intro b c hc
    cases t with
    | nil =>
      have ha : isHyphen a = false := h a (by simp)
      rw [squashRuns, ha] at hc
      simp only [Bool.false_eq_true, if_false] at hc
      rw [show squashRuns isHyphen '-' false ([] : List Char) = [] from rfl] at hc
      have hac : a = c := by simpa using hc
      rw [← hac]; exact ha
    | cons x u =>
      have h' : ∀ d, (x :: u).getLast? = some d → isHyphen d = false := by
        intro d hd
        exact h d (by rw [List.getLast?_cons_cons]; exact hd)
      have hlastmem : ∀ hsq : squashRuns isHyphen '-' true (x :: u) = [] ∨
            squashRuns isHyphen '-' false (x :: u) = [], False := by
        intro hsq
        have hne : (x :: u) ≠ [] := by simp
        have hh := h' _ (List.getLast?_eq_getLast _ hne)
        rcases hsq with hsq | hsq <;>
          rw [squashRuns_eq_nil hsq _ (List.getLast_mem hne)] at hh <;>
          simp at hh
      by_cases hp : isHyphen a = true
      · rw [squashRuns, hp] at hc
        simp only [if_true] at hc
        cases b with
        | true => exact ih h' true c (by simpa using hc)
        | false =>
          simp only [Bool.false_eq_true, if_false] at hc
          rcases hsq : squashRuns isHyphen '-' true (x :: u) with _ | ⟨y, v⟩
          · exact absurd (Or.inl hsq) hlastmem
          · rw [hsq, List.getLast?_cons_cons] at hc
            exact ih h' true c (by rw [hsq]; exact hc)
      · have hpa : isHyphen a = false := by simpa using hp
        rw [squashRuns, hpa] at hc
        simp only [Bool.false_eq_true, if_false] at hc
        rcases hsq : squashRuns isHyphen '-' false (x :: u) with _ | ⟨y, v⟩
        · exact absurd (Or.inr hsq) hlastmem
        · rw [hsq, List.getLast?_cons_cons] at hc
          exact ih h' false c (by rw [hsq]; exact hc)

theorem squashHyphens_eq_self {l : List Char} (h : noHyphenRun l = true) :
    ∀ b, (b = true → ∀ c, l.head? = some c → isHyphen c = false) →
      squashRuns isHyphen '-' b l = l := by
  induction l with
  | nil => intro b _; rfl
  | cons a t ih =>
    intro b hb
    by_cases hp : isHyphen a = true
    · cases b with
      | true =>
        have := hb rfl a rfl
        rw [hp] at this
        simp at this
      | false =>
        rw [squashRuns, hp]
        simp only [if_true, Bool.false_eq_true, if_false]
        have ha : a = '-' := by
          have h3 := hp
          simp [isHyphen] at h3
          exact h3
        rw [ha]
        have ht : squashRuns isHyphen '-' true t = t := by
          refine ih (noHyphenRun_tail h) true (fun _ c hc => ?_)
          have h2 := noHyphenRun_cons_head h c hc
          rw [hp] at h2
          simpa using h2
        rw [ht]
    · have hpa : isHyphen a = false := by simpa using hp
      rw [squashRuns, hpa]
      simp only [Bool.false_eq_true, if_false]
      rw [ih (noHyphenRun_tail h) false (fun hh => absurd hh Bool.false_ne_true)]

theorem pyIsSpace_cases {c : Char} (h : pyIsSpace c = true) :
    c = ' ' ∨ c = '\t' ∨ c = '\n' ∨ c = '\r' ∨ c = '\x0b' ∨ c = '\x0c' := by
  have h2 := h
  simp only [pyIsSpace, Bool.or_eq_true_iff, beq_iff_eq] at h2
  tauto

theorem keep_not_space {c : Char} (hk : keepChar c = true)
    (hs : pyIsSpace c = false) : (pyIsWordChar c || isHyphen c) = true := by
  simp only [keepChar, Bool.or_eq_true_iff] at hk
  rcases hk with (hw | hsp) | hh
  · simp [hw]
  · rw [hsp] at hs; cases hs
  · simp [hh]

theorem wordHyphen_not_space {c : Char}
    (h : (pyIsWordChar c || isHyphen c) = true) : pyIsSpace c = false := by
  cases hs : pyIsSpace c with
  | false => rfl
  | true =>
    rcases pyIsSpace_cases hs with rfl | rfl | rfl | rfl | rfl | rfl <;>
      exact absurd h (by decide)

theorem keep_of_wordHyphen {c : Char}
    (h : (pyIsWordChar c || isHyphen c) = true) : keepChar c = true := by
  rcases Bool.or_eq_true_iff.mp h with hw | hh
  · simp [keepChar, hw]
  · simp [keepChar, hh]

theorem rdropWhile_append_eq (p : Char → Bool) (l : List Char) :
    ∃ u, List.rdropWhile p l ++ u = l := by
  obtain ⟨u, hu⟩ := List.dropWhile_suffix (l := l.reverse) p
  refine ⟨u.reverse, ?_⟩
  rw [List.rdropWhile]
  calc (List.dropWhile p l.reverse).reverse ++ u.reverse
      = (u ++ List.dropWhile p l.reverse).reverse := by rw [List.reverse_append]
    _ = l.reverse.reverse := by rw [hu]
    _ = l := List.reverse_reverse l

theorem mem_of_mem_pyStripHyphens {c : Char} {l : List Char}
    (hc : c ∈ pyStripHyphens l) : c ∈ l := by
  unfold pyStripHyphens at hc
  obtain ⟨u, hu⟩ := rdropWhile_append_eq isHyphen (l.dropWhile isHyphen)
  have h1 : c ∈ l.dropWhile isHyphen := by
    rw [← hu]
    exact List.mem_append_left _ hc
  exact (List.dropWhile_suffix isHyphen).sublist.subset h1

theorem pyStripHyphens_head {l : List Char} :
    ∀ c, (pyStripHyphens l).head? = some c → isHyphen c = false := by
  intro c hc
  unfold pyStripHyphens at hc
  obtain ⟨u, hu⟩ := rdropWhile_append_eq isHyphen (l.dropWhile isHyphen)
  have hne : List.rdropWhile isHyphen (l.dropWhile isHyphen) ≠ [] := by
    intro e; rw [e] at hc; simp at hc
  have hh : (l.dropWhile isHyphen).head? = some c := by
    rw [← hu, head?_append_left hne]
    exact hc
  have hd : l.dropWhile isHyphen ≠ [] := by
    intro e; rw [e] at hh; simp at hh
  rw [List.head?_eq_head hd] at hh
  have hhc : (l.dropWhile isHyphen).head hd = c := by simpa using hh
  rw [← hhc]
  exact List.head_dropWhile_not isHyphen l hd

theorem pyStripHyphens_getLast {l : List Char} :
    ∀ c, (pyStripHyphens l).getLast? = some c → isHyphen c = false := by
  intro c hc
  unfold pyStripHyphens at hc
  have hne : List.rdropWhile isHyphen (l.dropWhile isHyphen) ≠ [] := by
    intro e; rw [e] at hc; simp at hc
  rw [List.getLast?_eq_getLast _ hne] at hc
  have hlast := List.rdropWhile_last_not isHyphen (l.dropWhile isHyphen) hne
  have heq : (List.rdropWhile isHyphen (l.dropWhile isHyphen)).getLast hne = c := by
    simpa using hc
  rw [← heq]
  simpa using hlast

theorem slugify_eq (x : List Char) :
    slugify x =
      if (squashRuns isHyphen '-' false (pyStripHyphens (squashRuns pyIsSpace '-'
            false ((x.map Char.toLower).filter keepChar)))).isEmpty
      then "report".toList
      else squashRuns isHyphen '-' false (pyStripHyphens (squashRuns pyIsSpace '-'
            false ((x.map Char.toLower).filter keepChar))) := rfl

theorem slugCore_slugForm {t2 : List Char}
    (hf : ∀ c ∈ t2, (pyIsWordChar c || isHyphen c) = true ∧ Char.toLower c = c)
    (h4 : (squashRuns isHyphen '-' false (pyStripHyphens t2)).isEmpty = false) :
    SlugForm (squashRuns isHyphen '-' false (pyStripHyphens t2)) = true := by
  have f3 : ∀ c ∈ pyStripHyphens t2,
      (pyIsWordChar c || isHyphen c) = true ∧ Char.toLower c = c :=
    fun c hc => hf c (mem_of_mem_pyStripHyphens hc)
  have f4 : ∀ c ∈ squashRuns isHyphen '-' false (pyStripHyphens t2),
      (pyIsWordChar c || isHyphen c) = true ∧ Char.toLower c = c := by
    intro c hc
    rcases mem_squashRuns hc with rfl | ⟨hm, _⟩
    · exact ⟨by decide, by decide⟩
    · exact f3 c hm
  have hrun : noHyphenRun (squashRuns isHyphen '-' false (pyStripHyphens t2)) = true :=
    (squashHyphens_noRun (pyStripHyphens t2) false).1
  have hlast : ∀ c,
      (squashRuns isHyphen '-' false (pyStripHyphens t2)).getLast? = some c →
      isHyphen c = false :=
    squashHyphens_getLast pyStripHyphens_getLast false
  have hhead : ∀ c,
      (squashRuns isHyphen '-' false (pyStripHyphens t2)).head? = some c →
      isHyphen c = false := by
    intro c hc
    cases h3 : pyStripHyphens t2 with
    | nil =>
      rw [h3] at hc
      simp [squashRuns] at hc
    | cons a u =>
      have ha : isHyphen a = false := pyStripHyphens_head a (by rw [h3]; rfl)
      rw [h3, squashRuns, ha] at hc
      simp only [Bool.false_eq_true, if_false] at hc
      have hac : a = c := by simpa using hc
      rw [← hac]; exact ha
  have hall : (squashRuns isHyphen '-' false (pyStripHyphens t2)).all slugChar
      = true := by
    rw [List.all_eq_true]
    intro c hc
    obtain ⟨hw, hl⟩ := f4 c hc
    simp [slugChar, hw, hl]
  have hh : ((squashRuns isHyphen '-' false (pyStripHyphens t2)).head?.all
      fun c => !isHyphen c) = true := by
    cases hq : (squashRuns isHyphen '-' false (pyStripHyphens t2)).head? with
    | none => rfl
    | some c => simp [hhead c hq]
  have hg : ((squashRuns isHyphen '-' false (pyStripHyphens t2)).getLast?.all
      fun c => !isHyphen c) = true := by
    cases hq : (squashRuns isHyphen '-' false (pyStripHyphens t2)).getLast? with
    | none => rfl
    | some c => simp [hlast c hq]
  simp [SlugForm, h4, hall, hh, hg, hrun]

theorem slugForm_slugify (x : List Char) : SlugForm (slugify x) = true := by
  have hf2 : ∀ c ∈ squashRuns pyIsSpace '-' false
      ((x.map Char.toLower).filter keepChar),
      (pyIsWordChar c || isHyphen c) = true ∧ Char.toLower c = c := by
    intro c hc
    rcases mem_squashRuns hc with rfl | ⟨hm, hs⟩
    · exact ⟨by decide, by decide⟩
    · have hk : keepChar c = true := List.of_mem_filter hm
      have hmm : c ∈ x.map Char.toLower := (List.filter_sublist _).subset hm
      obtain ⟨a, _, rfl⟩ := List.mem_map.mp hmm
      exact ⟨keep_not_space hk hs, toLower_toLower a⟩
  rw [slugify_eq]
  by_cases h4 : (squashRuns isHyphen '-' false (pyStripHyphens (squashRuns
      pyIsSpace '-' false ((x.map Char.toLower).filter keepChar)))).isEmpty = true
  · rw [if_pos h4]; decide
  · rw [if_neg h4]
    exact slugCore_slugForm hf2 (by simpa using h4)

theorem slugify_fix {l : List Char} (h : SlugForm l = true) : slugify l = l := by
  have hcomp := h
  simp only [SlugForm, Bool.and_eq_true] at hcomp
  obtain ⟨⟨⟨⟨hne, hall⟩, hhead⟩, hlast⟩, hrun⟩ := hcomp
  have hne' : l.isEmpty = false := by simpa using hne
  have hall' : ∀ c ∈ l, (pyIsWordChar c || isHyphen c) = true ∧
      Char.toLower c = c := by
    intro c hc
    have h2 := (List.all_eq_true.mp hall) c hc
    simp only [slugChar, Bool.and_eq_true, beq_iff_eq] at h2
    exact h2
  have hhead' : ∀ c, l.head? = some c → isHyphen c = false := by
    intro c hc
    have h2 := hhead
    rw [hc] at h2
    simpa using h2
  have hlast' : ∀ c, l.getLast? = some c → isHyphen c = false := by
    intro c hc
    have h2 := hlast
    rw [hc] at h2
    simpa using h2
  have e1 : l.map Char.toLower = l := by
    calc l.map Char.toLower
        = l.map id := List.map_congr_left (fun c hc => (hall' c hc).2)
      _ = l := List.map_id l
  have e2 : l.filter keepChar = l :=
    List.filter_eq_self.mpr (fun c hc => keep_of_wordHyphen (hall' c hc).1)
  have e3 : squashRuns pyIsSpace '-' false l = l :=
    squashRuns_eq_self (fun c hc => wordHyphen_not_space (hall' c hc).1) false
  have e4 : pyStripHyphens l = l := by
    unfold pyStripHyphens
    rw [dropWhile_eq_self_of_head hhead', rdropWhile_eq_self_of_getLast hlast']
  have e5 : squashRuns isHyphen '-' false l = l :=
    squashHyphens_eq_self hrun false (fun hh => absurd hh Bool.false_ne_true)
  rw [slugify_eq, e1, e2, e3, e4, e5, hne']
  simp

/-- C8: slug generation (lines 211-214) is idempotent: running the
case-fold / strip / whitespace-to-hyphen / hyphen-collapse / trim / fallback
pipeline on its own output returns that output unchanged, for every input
string. -/
theorem slugify_idempotent (x : List Char) : slugify (slugify x) = slugify x :=
  slugify_fix (slugForm_slugify x)

end Law

